import Mathlib

/-!
Verification of the end-of-turn detection layer of the ai-interview
repository.

The model below is a shallow embedding of the three speech-recognition
hooks:

* `useEnhancedSpeechRecognition.ts` (the VAD-fused turn detector) is
  embedded as an explicit event-driven state machine (`EState`, `step`,
  `run`).  Each browser/VAD callback of the hook becomes one handler
  function; `setTimeout`/`clearTimeout` are modelled by an explicit list
  of live timers plus the id held in `speechEndTimerRef`.
* `useStreamingVAD.ts` `startListening` is embedded as
  `vadStartListening`.
* the standalone hook found in `src/unnamed/part_001` contributes its
  `onerror` recovery logic (`p1HandleError`, `p1FireRestart`) and its
  dynamic debounce-timeout computation (`dynamicTimeout`,
  `armedTimeout`).

Numeric conventions: all timestamps and durations are integers in
milliseconds, exactly as produced by `Date.now()`.  Voice-activity
probabilities and transcript confidences, which the source writes as
decimal fractions of 1 (0.8, 0.9, 0.85, 0.3), are represented in
hundredths as integers (80, 90, 85, 30); the scaling is order-preserving
and every constant appearing in the source is exact in hundredths.  The
dynamic-timeout formula of `part_001`, which genuinely divides, is
modelled over `ℚ`.
-/

namespace AIInterview

/-- Model of the JavaScript `String.prototype.trim`: drop whitespace
from both ends of the string.  (The accumulated transcripts are only
ever inspected through `trim().length > 0` and emitted as `trim()`.) -/
def jsTrim (s : String) : String :=
  String.mk (((s.data.dropWhile Char.isWhitespace).reverse.dropWhile
    Char.isWhitespace).reverse)

/-- The configuration object of `useEnhancedSpeechRecognition`
(`settings`, lines 41-47).  `endOfSpeechTimeout` is declared in the
source but never read by any handler, so it is omitted.  Probabilities
are in hundredths, times in milliseconds. -/
structure Settings where
  minSpeechDuration : Int
  silenceAfterSpeechTimeout : Int
  vadThreshold : Int
  deriving DecidableEq, Repr

/-- The source defaults: minSpeechDuration 800 ms, vadThreshold 0.8,
silenceAfterSpeechTimeout 1500 ms. -/
def defaultSettings : Settings :=
  { minSpeechDuration := 800
    silenceAfterSpeechTimeout := 1500
    vadThreshold := 80 }

/-- One scheduled `setTimeout` callback for the end-of-speech debounce:
its identity and the time at which it is due to fire. -/
structure TimerInfo where
  id : Nat
  fireAt : Int
  deriving DecidableEq, Repr

/-- Events emitted by the hook to the outside world: the
`onSpeechEnd(finalText)` turn-completion callback, and a restart of the
`SpeechRecognition` object (`recognitionRef.current.start()`). -/
inductive Out where
  | turnComplete (text : String)
  | recognitionStarted
  deriving DecidableEq, Repr

/-- The mutable state of `useEnhancedSpeechRecognition`: the refs
(`finalTranscriptRef`, `interimTranscriptRef`, `speechStartTimeRef`,
`hasCapturedSpeechRef`, `speechEndTimerRef`) and the React state that
the handlers read or write (`confidence`, `error`, `isListening`),
plus the explicit timer bookkeeping.  `liveTimers` holds every armed
and not-yet-fired and not-yet-cleared debounce timeout; `speechEndTimer`
is the id stored in `speechEndTimerRef` (clearing only ever cancels this
one, so a timer overwritten in the ref stays live).  `vadActive` records
whether the `MicVAD` instance is alive (its callbacks can only arrive
while it is); `restartTimers` holds the fire times of the `setTimeout`
calls scheduled by the `onerror` auto-restart path. -/
structure EState where
  finalTranscript : String
  interimTranscript : String
  speechStartTime : Int
  hasCapturedSpeech : Bool
  speechEndTimer : Option Nat
  liveTimers : List TimerInfo
  nextTimerId : Nat
  confidence : Int
  errorMsg : Option String
  isListening : Bool
  vadActive : Bool
  restartTimers : List Int
  deriving DecidableEq, Repr

/-- The state right after a successful `startListening` (lines 199-244):
all refs reset, recognition and VAD running. -/
def initState : EState :=
  { finalTranscript := ""
    interimTranscript := ""
    speechStartTime := 0
    hasCapturedSpeech := false
    speechEndTimer := none
    liveTimers := []
    nextTimerId := 0
    confidence := 0
    errorMsg := none
    isListening := true
    vadActive := true
    restartTimers := [] }

/-- `clearTimeout(speechEndTimerRef.current); speechEndTimerRef.current
= null` — cancels exactly the timer whose id is held in the ref. -/
def clearEndTimer (s : EState) : EState :=
  { s with
    speechEndTimer := none
    liveTimers :=
      match s.speechEndTimer with
      | none => s.liveTimers
      | some i => s.liveTimers.filter (fun t => t.id != i) }

/-- `handleVADSpeechStart` (lines 50-64): record the speech start time,
mark speech captured, clear any pending end-of-speech timer. -/
def handleVADSpeechStart (s : EState) (now : Int) : EState :=
  clearEndTimer { s with speechStartTime := now, hasCapturedSpeech := true }

/-- The local `speechDuration` computed at the top of
`handleVADSpeechEnd` (line 69). -/
def speechDurationAt (s : EState) (now : Int) : Int :=
  now - s.speechStartTime

/-- `handleVADSpeechEnd` (lines 66-88): compute the speech duration; if
it meets `minSpeechDuration`, the trimmed final transcript is non-empty
and speech has been captured, arm a fresh debounce timeout of length
`silenceAfterSpeechTimeout`.  The previous value of
`speechEndTimerRef` is overwritten without being cleared. -/
def handleVADSpeechEnd (cfg : Settings) (s : EState) (now : Int) : EState :=
  if cfg.minSpeechDuration ≤ speechDurationAt s now ∧
      0 < (jsTrim s.finalTranscript).length ∧
      s.hasCapturedSpeech = true then
    { s with
      speechEndTimer := some s.nextTimerId
      liveTimers := s.liveTimers ++ [⟨s.nextTimerId, now + cfg.silenceAfterSpeechTimeout⟩]
      nextTimerId := s.nextTimerId + 1 }
  else s

/-- `handleVADSpeaking` (lines 90-97): a probability strictly above the
threshold while an end timer is pending cancels that timer. -/
def handleVADSpeaking (cfg : Settings) (s : EState) (p : Int) : EState :=
  if cfg.vadThreshold < p ∧ s.speechEndTimer.isSome then clearEndTimer s else s

/-- `result[0].confidence || 0.8` — JavaScript `||` replaces a zero
confidence by the 0.8 default. -/
def jsConfOr80 (c : Int) : Int := if c = 0 then 80 else c

/-- The fold of the `onresult` loop over the final results: the running
maximum of the (defaulted) per-segment confidences, starting at 0. -/
def maxFinalConfidence (finals : List (String × Int)) : Int :=
  finals.foldl (fun m f => max m (jsConfOr80 f.2)) 0

/-- The concatenation `finalTranscript += resultTranscript` over the
final results of one `onresult` event. -/
def concatTexts (finals : List (String × Int)) : String :=
  finals.foldl (fun a f => a ++ f.1) ""

/-- `recognition.onresult` (lines 132-163): accumulate final segments,
overwrite the interim fragment, set confidence to the maximum final
confidence (or the 0.8 default when there were no final segments). -/
def handleResult (s : EState) (finals : List (String × Int)) (interim : String) :
    EState :=
  let maxC := maxFinalConfidence finals
  let fin := concatTexts finals
  { s with
    confidence := if maxC = 0 then 80 else maxC
    finalTranscript := if fin ≠ "" then s.finalTranscript ++ fin else s.finalTranscript
    interimTranscript := interim }

/-- The error kinds the `onerror` handlers treat as transient
(`no-speech` and `audio-capture`). -/
def transientKind (kind : String) : Bool :=
  kind == "no-speech" || kind == "audio-capture"

/-- `recognition.onerror` of the enhanced hook (lines 165-181): record
the reason string in the error state; for a transient kind, schedule a
restart attempt 1000 ms later.  Nothing is torn down and no transcript
is cleared. -/
def handleError (s : EState) (now : Int) (kind : String) : EState :=
  let s1 := { s with errorMsg := some ("Speech recognition error: " ++ kind) }
  if transientKind kind then
    { s1 with restartTimers := s1.restartTimers ++ [now + 1000] }
  else s1

/-- `stopListening` (lines 246-275): destroy the VAD, stop recognition,
clear the ref-held timers, drop the listening flag.  Transcript refs are
left untouched. -/
def stopListening (s : EState) : EState :=
  let s1 := clearEndTimer s
  { s1 with vadActive := false, isListening := false }

/-- A scheduled end-of-speech timeout firing (the callback of lines
78-86): only a still-live timer whose due time has been reached runs;
the callback re-reads the final transcript ref, and if its trim is
non-empty it stops everything and invokes `onSpeechEnd` with the
trimmed text.  (The hook is modelled with an `onSpeechEnd` callback
installed, as the application does.) -/
def fireEndTimer (s : EState) (now : Int) (i : Nat) : EState × List Out :=
  match s.liveTimers.find? (fun t => t.id == i) with
  | none => (s, [])
  | some t =>
    if t.fireAt ≤ now then
      let s1 := { s with liveTimers := s.liveTimers.filter (fun u => u.id != i) }
      let finalText := jsTrim s1.finalTranscript
      if finalText ≠ "" then (stopListening s1, [Out.turnComplete finalText])
      else (s1, [])
    else (s, [])

/-- One of the restart timeouts scheduled by `onerror` firing: the
callback restarts recognition only if the hook still believes it is
listening. -/
def fireRestart (s : EState) (now : Int) : EState × List Out :=
  if now ∈ s.restartTimers then
    let s1 := { s with restartTimers := s.restartTimers.erase now }
    if s1.isListening then (s1, [Out.recognitionStarted]) else (s1, [])
  else (s, [])

/-- `resetTranscript` (lines 277-284). -/
def resetTranscript (s : EState) : EState :=
  { s with
    finalTranscript := ""
    interimTranscript := ""
    hasCapturedSpeech := false
    speechStartTime := 0
    confidence := 0 }

/-- The serialized event feed of one session: VAD callbacks, recognition
callbacks, timer expirations, and the externally callable
`stopListening`/`resetTranscript`. -/
inductive Ev where
  | vadStart (now : Int)
  | vadEnd (now : Int)
  | vadFrame (now : Int) (p : Int)
  | result (now : Int) (finals : List (String × Int)) (interim : String)
  | recError (now : Int) (kind : String)
  | recEnded (now : Int)
  | endTimerFire (now : Int) (i : Nat)
  | restartFire (now : Int)
  | stopCall (now : Int)
  | resetCall (now : Int)
  deriving DecidableEq, Repr

/-- One step of the event-driven machine.  VAD callbacks can only be
delivered while the `MicVAD` instance is alive, and recognition
callbacks only while recognition is running; timer callbacks are
independent of both (a JavaScript timeout fires regardless). -/
def step (cfg : Settings) (s : EState) : Ev → EState × List Out
  | .vadStart now => if s.vadActive then (handleVADSpeechStart s now, []) else (s, [])
  | .vadEnd now => if s.vadActive then (handleVADSpeechEnd cfg s now, []) else (s, [])
  | .vadFrame _ p => if s.vadActive then (handleVADSpeaking cfg s p, []) else (s, [])
  | .result _ finals interim =>
      if s.isListening then (handleResult s finals interim, []) else (s, [])
  | .recError now kind => if s.isListening then (handleError s now kind, []) else (s, [])
  | .recEnded _ => ({ s with isListening := false }, [])
  | .endTimerFire now i => fireEndTimer s now i
  | .restartFire now => fireRestart s now
  | .stopCall _ => (stopListening s, [])
  | .resetCall _ => (resetTranscript s, [])

/-- Run a whole event trace, collecting the emitted events in order. -/
def run (cfg : Settings) (s : EState) : List Ev → EState × List Out
  | [] => (s, [])
  | e :: es =>
    let p := step cfg s e
    let q := run cfg p.1 es
    (q.1, p.2 ++ q.2)

/-- Number of turn-completion emissions in an output list. -/
def tcCount (outs : List Out) : Nat :=
  (outs.filter fun o => match o with | .turnComplete _ => true | _ => false).length

/-- `true` iff the trace contains a VAD speech-start event. -/
def hasVadStart : List Ev → Bool
  | [] => false
  | (Ev.vadStart _) :: _ => true
  | _ :: r => hasVadStart r

/-- The in-speech flag of the voice-activity collaborator contract after
one event. -/
def inSpeechAfter (inS : Bool) : Ev → Bool
  | .vadStart _ => true
  | .vadEnd _ => false
  | _ => inS

/-- The voice-activity collaborator contract (spec §6): every
`speech-end` is preceded by a `speech-start` with no other `speech-end`
in between, i.e. start/end events alternate. -/
def vadAlternates (inS : Bool) : List Ev → Bool
  | [] => true
  | (Ev.vadEnd _) :: r => inS && vadAlternates false r
  | e :: r => vadAlternates (inSpeechAfter inS e) r

/-- Snapshot of the `useStreamingVAD` state read by its
`startListening`. -/
structure VState where
  isVADSupported : Bool
  isListening : Bool
  errorMsg : Option String
  deriving DecidableEq, Repr

/-- The entry of `useStreamingVAD.startListening` (lines 91-103): it
throws when VAD is unsupported; when already listening it logs a
warning and returns (before even clearing the error state); otherwise
it clears the error and raises the listening flag (the rest of the
body acquires the `MicVAD` resources). -/
def vadStartListening (s : VState) : Except String VState :=
  if s.isVADSupported = false then Except.error "VAD not supported"
  else if s.isListening = true then Except.ok s
  else Except.ok { s with errorMsg := none, isListening := true }

/-- State of the standalone hook in `src/unnamed/part_001` relevant to
its `onerror` recovery path. -/
structure P1State where
  finalTranscript : String
  isListening : Bool
  silenceTimer : Option Int
  restartTimers : List Int
  deriving DecidableEq, Repr

/-- `recognition.onerror` of `part_001` (lines 149-171): drop the
listening flag, clear the silence timer, and for a transient error
kind schedule a restart attempt 1000 ms later. -/
def p1HandleError (s : P1State) (now : Int) (kind : String) : P1State :=
  let s1 := { s with isListening := false, silenceTimer := none }
  if transientKind kind then
    { s1 with restartTimers := s1.restartTimers ++ [now + 1000] }
  else s1

/-- A restart timeout of `part_001` firing: the callback restarts
recognition only if `recognitionRef.current && isListening`. -/
def p1FireRestart (s : P1State) (now : Int) : P1State × List Out :=
  if now ∈ s.restartTimers then
    let s1 := { s with restartTimers := s.restartTimers.erase now }
    if s1.isListening then (s1, [Out.recognitionStarted]) else (s1, [])
  else (s, [])

/-- The dynamic debounce timeout computed by `part_001` `onresult`
(lines 106-109): `Math.max(silenceTimeout * 0.7, silenceTimeout -
(finalTranscript.length / 10) * 100)`.  Milliseconds, over `ℚ` because
the source genuinely divides here. -/
def dynamicTimeout (silenceTimeout : ℚ) (len : Nat) : ℚ :=
  max (silenceTimeout * 0.7) (silenceTimeout - ((len : ℚ) / 10) * 100)

/-- The timeout `part_001` actually passes to `setTimeout` (line 134):
`Math.max(dynamicTimeout, 1000)`. -/
def armedTimeout (silenceTimeout : ℚ) (len : Nat) : ℚ :=
  max (dynamicTimeout silenceTimeout len) 1000

end AIInterview

namespace AIInterview

/-! ## Concrete fixtures used by the theorems -/

/-- Scenario configuration: `minSpeechDurationMs` 800 (source default),
`silenceConfirmationMs` 1500, probability threshold 0.8. -/
def cfgA : Settings :=
  { minSpeechDuration := 800, silenceAfterSpeechTimeout := 1500, vadThreshold := 80 }

/-- Scenario A of the spec: speech-start at t=0, final segment
"hello world" with confidence 0.9 at t=600, speech-end at t=1200, the
1500 ms debounce elapsing uninterrupted at t=2700. -/
def traceA : List Ev :=
  [Ev.vadStart 0, Ev.result 600 [("hello world", 90)] "", Ev.vadEnd 1200,
   Ev.endTimerFire 2700 0]

/-- An adversarial feed with three consecutive speech-end events: each
arming overwrites `speechEndTimerRef` without clearing the previous
timeout, leaving the earlier ones live. -/
def traceTripleEnd : List Ev :=
  [Ev.vadStart 0, Ev.result 600 [("hello world", 90)] "", Ev.vadEnd 1200,
   Ev.vadEnd 1300, Ev.vadEnd 1400, Ev.endTimerFire 2700 0, Ev.endTimerFire 2800 1]

/-- Two consecutive speech-end events: the second arming leaks the
first timer. -/
def traceDoubleEnd : List Ev :=
  [Ev.vadStart 0, Ev.result 600 [("hello world", 90)] "", Ev.vadEnd 1200,
   Ev.vadEnd 1300]

/-- A session feed with no voice-activity speech-start at all. -/
def traceNoStart : List Ev :=
  [Ev.result 600 [("hello world", 90)] "", Ev.vadEnd 5000, Ev.endTimerFire 9000 0]

/-- A fatal (non-transient) recognition error arriving mid-session
after "hello" has been accumulated. -/
def traceFatal : List Ev :=
  [Ev.vadStart 0, Ev.result 600 [("hello", 90)] "", Ev.recError 700 "not-allowed"]

/-- A `useStreamingVAD` state with a session open. -/
def vActive : VState :=
  { isVADSupported := true, isListening := true, errorMsg := none }

/-- A `part_001` state listening with accumulated text. -/
def p1Active : P1State :=
  { finalTranscript := "hello there", isListening := true, silenceTimer := none,
    restartTimers := [] }

/-! ## C1 -/

/-- C1 counterexample: in scenario A the source emits the turn-complete
through `onSpeechEnd(finalText)`, whose payload is the text alone — the
single emission of the run is `Out.turnComplete "hello world"`, an event
with no confidence and no duration field, mirroring the callback
signature `(transcript: string) => void`.  No 1200 ms duration is
delivered or even recoverable at emission time: the hook exposes no
end-of-speech timestamp, and the only duration-like quantity computable
from its state when the debounce fires at t=2700 is
`now - speechStartTime = 2700`, not the claimed 1200.  The 1200 ms
value exists solely as the `speechDuration` local inside
`handleVADSpeechEnd`, where it is logged and gated on, never returned. -/
theorem scenarioA_payload_text_only_counterexample :
    (run cfgA initState traceA).2 = [Out.turnComplete "hello world"] ∧
    speechDurationAt (run cfgA initState traceA).1 2700 = 2700 ∧
    speechDurationAt (run cfgA initState traceA).1 2700 ≠ 1200 := by
  refine ⟨by decide, by decide, by decide⟩

/-- C1 amended: in scenario A (speech-start at t=0, final segment
"hello world" with confidence 0.9 at t=600, speech-end at t=1200,
debounce of 1500 ms elapsing uninterrupted at t=2700) the detector
invokes the turn-completion callback exactly once, and its payload is
the concatenated trimmed final transcript "hello world" only.  The
confidence observable of the hook reads 0.9 (90 hundredths, the maximum
over final segments) at that point but is not part of the payload, and
the 1200 ms elapsed duration exists only as the internal
`speechDuration` gate local computed at the arming speech-end — it is
used for the minimum-duration check and never delivered to the
caller. -/
theorem scenarioA_text_only_emission :
    (run cfgA initState traceA).2 = [Out.turnComplete "hello world"] ∧
    (run cfgA initState traceA).1.confidence = 90 ∧
    speechDurationAt (run cfgA initState (traceA.take 2)).1 1200 = 1200 := by
  refine ⟨by decide, by decide, by decide⟩

/-! ## C2 and C9 share the fact that the enhanced hook always arms a
fixed-length debounce window. -/

/-- Any timer newly armed by `handleVADSpeechEnd` is due exactly
`silenceAfterSpeechTimeout` after the speech-end, whatever the
accumulated transcript. -/
lemma new_timer_fireAt (cfg : Settings) (s : EState) (now : Int) :
    ∀ t ∈ (handleVADSpeechEnd cfg s now).liveTimers, t ∉ s.liveTimers →
      t.fireAt = now + cfg.silenceAfterSpeechTimeout := by
  unfold handleVADSpeechEnd
  split_ifs with hc
  · intro t ht hn
    simp only [List.mem_append, List.mem_singleton] at ht
    rcases ht with h1 | h1
    · exact absurd h1 hn
    · rw [h1]
  · intro t ht hn
    exact absurd ht hn

/-- C2: with speech captured, a voice-activity speech-end arms a fresh
debounce timer of length `silenceConfirmationMs` exactly when the
elapsed speech duration reaches `minSpeechDurationMs` and the trimmed
final-transcript accumulator is non-empty; otherwise the handler leaves
the state completely unchanged. -/
theorem speech_end_arms_iff_valid (cfg : Settings) (s : EState) (now : Int)
    (h : s.hasCapturedSpeech = true) :
    (((handleVADSpeechEnd cfg s now).liveTimers.length = s.liveTimers.length + 1 ∧
        (handleVADSpeechEnd cfg s now).speechEndTimer = some s.nextTimerId) ↔
      (cfg.minSpeechDuration ≤ speechDurationAt s now ∧
        0 < (jsTrim s.finalTranscript).length)) ∧
    (∀ t ∈ (handleVADSpeechEnd cfg s now).liveTimers, t ∉ s.liveTimers →
      t.fireAt = now + cfg.silenceAfterSpeechTimeout) ∧
    (¬ (cfg.minSpeechDuration ≤ speechDurationAt s now ∧
        0 < (jsTrim s.finalTranscript).length) →
      handleVADSpeechEnd cfg s now = s) := by
  refine ⟨?_, new_timer_fireAt cfg s now, ?_⟩
  · unfold handleVADSpeechEnd
    split_ifs with hc
    · constructor
      · intro _
        exact ⟨hc.1, hc.2.1⟩
      · intro _
        simp
    · constructor
      · intro hx
        exact absurd hx.1 (by omega)
      · intro hx
        exact absurd ⟨hx.1, hx.2, h⟩ hc
  · intro hn
    unfold handleVADSpeechEnd
    rw [if_neg]
    intro hc
    exact hn ⟨hc.1, hc.2.1⟩

/-- Witness for C2: with `minSpeechDurationMs` 1000, a speech-end after
400 ms of captured speech (and an empty accumulator) arms nothing and
changes nothing. -/
theorem speech_end_arms_iff_valid_witness :
    ({ initState with hasCapturedSpeech := true } : EState).hasCapturedSpeech = true ∧
    handleVADSpeechEnd
        { minSpeechDuration := 1000, silenceAfterSpeechTimeout := 1500, vadThreshold := 80 }
        { initState with hasCapturedSpeech := true } 400 =
      { initState with hasCapturedSpeech := true } :=
  ⟨rfl, (speech_end_arms_iff_valid
      { minSpeechDuration := 1000, silenceAfterSpeechTimeout := 1500, vadThreshold := 80 }
      { initState with hasCapturedSpeech := true } 400 rfl).2.2 (by decide)⟩

end AIInterview

namespace AIInterview

/-! ## C3 -/

/-- C3: while a debounce timer is pending, a voice-activity probability
strictly above the threshold cancels it — the ref is emptied, the timer
is no longer live, and its scheduled expiration is a no-op that emits
nothing. -/
theorem probability_spike_cancels_debounce (cfg : Settings) (s : EState)
    (p : Int) (i : Nat) (now : Int)
    (hi : s.speechEndTimer = some i) (hp : cfg.vadThreshold < p) :
    (handleVADSpeaking cfg s p).speechEndTimer = none ∧
    (∀ t ∈ (handleVADSpeaking cfg s p).liveTimers, t.id ≠ i) ∧
    step cfg (handleVADSpeaking cfg s p) (Ev.endTimerFire now i) =
      (handleVADSpeaking cfg s p, []) := by
  have hcl : handleVADSpeaking cfg s p = clearEndTimer s := by
    unfold handleVADSpeaking
    rw [if_pos ⟨hp, by rw [hi]; rfl⟩]
  rw [hcl]
  have hlive : (clearEndTimer s).liveTimers = s.liveTimers.filter (fun t => t.id != i) := by
    unfold clearEndTimer
    rw [hi]
  have hmem : ∀ t ∈ (clearEndTimer s).liveTimers, t.id ≠ i := by
    rw [hlive]
    intro t ht
    have := List.of_mem_filter ht
    simpa using this
  refine ⟨rfl, hmem, ?_⟩
  have hfind : (clearEndTimer s).liveTimers.find? (fun t => t.id == i) = none := by
    rw [List.find?_eq_none]
    intro t ht
    simpa using hmem t ht
  show fireEndTimer (clearEndTimer s) now i = (clearEndTimer s, [])
  unfold fireEndTimer
  rw [hfind]

/-- A state with a debounce timer pending (armed at t=0 for the 1500 ms
mark) over the transcript "hello world". -/
def sDebouncing : EState :=
  { initState with
    finalTranscript := "hello world"
    hasCapturedSpeech := true
    speechEndTimer := some 0
    liveTimers := [⟨0, 1500⟩]
    nextTimerId := 1 }

/-- Witness for C3: with threshold 0.8 and silence window 1500, a spike
of 0.85 at 1000 ms into the debounce cancels the timer armed for the
1500 ms mark, whose scheduled fire then does nothing. -/
theorem probability_spike_cancels_debounce_witness :
    sDebouncing.speechEndTimer = some 0 ∧
    cfgA.vadThreshold < 85 ∧
    step cfgA (handleVADSpeaking cfgA sDebouncing 85) (Ev.endTimerFire 1500 0) =
      (handleVADSpeaking cfgA sDebouncing 85, []) :=
  ⟨rfl, by decide,
    (probability_spike_cancels_debounce cfgA sDebouncing 85 0 1500 rfl (by decide)).2.2⟩

/-! ## C6 -/

/-- C6 counterexample: calling the VAD start operation while a session
is already listening does not fail — it returns success with the state
completely unchanged (the source logs a console warning and returns),
contradicting the claim that it fails with an `AlreadyActive` error. -/
theorem start_while_active_no_error :
    vadStartListening vActive = Except.ok vActive := by
  rfl

/-- C6 amended: starting while already listening is a silent no-op at
the VAD layer — success is returned, no error is reported, no state
changes and no second session is started. -/
theorem start_while_active_silent_noop (s : VState)
    (h1 : s.isVADSupported = true) (h2 : s.isListening = true) :
    vadStartListening s = Except.ok s := by
  unfold vadStartListening
  rw [if_neg (by rw [h1]; simp), if_pos h2]

/-- Witness for the amended C6. -/
theorem start_while_active_silent_noop_witness :
    vActive.isVADSupported = true ∧ vActive.isListening = true ∧
      vadStartListening vActive = Except.ok vActive :=
  ⟨rfl, rfl, start_while_active_silent_noop vActive rfl rfl⟩

/-! ## C7 -/

/-- C7 counterexample: a fatal (non-transient) recognition error after
"hello" has been accumulated emits nothing at all — no `sessionError`
event (let alone one carrying the accumulated text), the error state
holds only the reason string, and neither the VAD nor the recognition
listening flag is torn down; the accumulated transcript merely stays in
the transcript state. -/
theorem fatal_error_no_teardown_counterexample :
    (run cfgA initState traceFatal).2 = [] ∧
    (run cfgA initState traceFatal).1.errorMsg =
      some "Speech recognition error: not-allowed" ∧
    (run cfgA initState traceFatal).1.vadActive = true ∧
    (run cfgA initState traceFatal).1.isListening = true ∧
    (run cfgA initState traceFatal).1.finalTranscript = "hello" := by
  refine ⟨by decide, by decide, by decide, by decide, by decide⟩

/-- C7 amended: on a fatal recognition error the hook records only the
reason string in its error state; no event is emitted to the caller, no
teardown happens, and the accumulated final transcript is preserved in
the transcript state (not attached to the error). -/
theorem fatal_error_records_reason_preserves_text (cfg : Settings) (s : EState)
    (now : Int) (kind : String) (hL : s.isListening = true)
    (hK : transientKind kind = false) :
    (step cfg s (Ev.recError now kind)).2 = [] ∧
    (step cfg s (Ev.recError now kind)).1.errorMsg =
      some ("Speech recognition error: " ++ kind) ∧
    (step cfg s (Ev.recError now kind)).1.finalTranscript = s.finalTranscript ∧
    (step cfg s (Ev.recError now kind)).1.vadActive = s.vadActive ∧
    (step cfg s (Ev.recError now kind)).1.isListening = s.isListening ∧
    (step cfg s (Ev.recError now kind)).1.liveTimers = s.liveTimers := by
  simp [step, hL, handleError, hK]

/-- Witness for the amended C7. -/
theorem fatal_error_records_reason_preserves_text_witness :
    initState.isListening = true ∧ transientKind "not-allowed" = false ∧
      (step cfgA initState (Ev.recError 700 "not-allowed")).2 = [] :=
  ⟨rfl, by decide,
    (fatal_error_records_reason_preserves_text cfgA initState 700 "not-allowed"
      rfl (by decide)).1⟩

/-! ## C8 -/

/-- C8 counterexample: in the standalone `part_001` implementation, a
transient `no-speech` error does schedule a restart attempt, but the
error handler has already dropped the listening flag, so when the
restart timeout fires its `isListening` guard fails and recognition is
never restarted — contradicting the claim that the restart actually
occurs.  The accumulated text survives untouched. -/
theorem p1_no_restart_counterexample :
    (p1HandleError p1Active 500 "no-speech").restartTimers = [1500] ∧
    (p1FireRestart (p1HandleError p1Active 500 "no-speech") 1500).2 = [] ∧
    (p1FireRestart (p1HandleError p1Active 500 "no-speech") 1500).1.finalTranscript =
      "hello there" := by
  refine ⟨by decide, by decide, by decide⟩

/-- C8 amended: in the VAD-fused implementation the transient-error
auto-restart does occur — the error handler leaves the listening flag
up, the scheduled attempt fires 1000 ms later and restarts recognition,
the session is not torn down, and the accumulated final transcript is
unchanged; in the standalone implementation the restart guard fails (see
the counterexample) though the text is likewise preserved. -/
theorem enhanced_transient_error_restarts (cfg : Settings) (s : EState)
    (now : Int) (kind : String) (hL : s.isListening = true)
    (hK : transientKind kind = true) :
    (step cfg s (Ev.recError now kind)).2 = [] ∧
    (step cfg (step cfg s (Ev.recError now kind)).1
        (Ev.restartFire (now + 1000))).2 = [Out.recognitionStarted] ∧
    (step cfg (step cfg s (Ev.recError now kind)).1
        (Ev.restartFire (now + 1000))).1.finalTranscript = s.finalTranscript ∧
    (step cfg (step cfg s (Ev.recError now kind)).1
        (Ev.restartFire (now + 1000))).1.vadActive = s.vadActive ∧
    (step cfg (step cfg s (Ev.recError now kind)).1
        (Ev.restartFire (now + 1000))).1.isListening = true := by
  have h1 : step cfg s (Ev.recError now kind) =
      ({ s with
          errorMsg := some ("Speech recognition error: " ++ kind)
          restartTimers := s.restartTimers ++ [now + 1000] }, []) := by
    simp only [step, hL, if_true, handleError, hK]
  rw [h1]
  have hmem : (now + 1000) ∈ s.restartTimers ++ [now + 1000] := by
    simp
  simp [step, fireRestart, hmem, hL]

/-- Witness for the amended C8. -/
theorem enhanced_transient_error_restarts_witness :
    initState.isListening = true ∧ transientKind "no-speech" = true ∧
      (step cfgA (step cfgA initState (Ev.recError 700 "no-speech")).1
        (Ev.restartFire 1700)).2 = [Out.recognitionStarted] :=
  ⟨rfl, by decide,
    (enhanced_transient_error_restarts cfgA initState 700 "no-speech"
      rfl (by decide)).2.1⟩

end AIInterview

namespace AIInterview

/-! ## C9 -/

/-- C9: the two implementations diverge on debounce policy.  The
`part_001` hook arms `max(max(0.7·T, T − 10·len), 1000)` — the maximum
of 70 percent of the configured silence timeout, the timeout minus
10 ms per accumulated character, and 1000 ms — which is monotonically
non-increasing in the accumulated length and bounded below by
`max(0.7·T, 1000)`; the VAD-fused hook always arms a window of exactly
`silenceAfterSpeechTimeout`, independent of the transcript. -/
theorem debounce_policy_divergence :
    (∀ (t : ℚ) (len : Nat),
        armedTimeout t len = max (max (t * (7 / 10)) (t - 10 * len)) 1000) ∧
    (∀ (t : ℚ) (l1 l2 : Nat), l1 ≤ l2 → armedTimeout t l2 ≤ armedTimeout t l1) ∧
    (∀ (t : ℚ) (len : Nat), max (t * (7 / 10)) 1000 ≤ armedTimeout t len) ∧
    (∀ (cfg : Settings) (s : EState) (now : Int),
        ∀ ti ∈ (handleVADSpeechEnd cfg s now).liveTimers, ti ∉ s.liveTimers →
          ti.fireAt = now + cfg.silenceAfterSpeechTimeout) := by
  have hform : ∀ (t : ℚ) (len : Nat),
      armedTimeout t len = max (max (t * (7 / 10)) (t - 10 * len)) 1000 := by
    intro t len
    unfold armedTimeout dynamicTimeout
    have h7 : t * 0.7 = t * (7 / 10) := by norm_num
    have hlen : t - ((len : ℚ) / 10) * 100 = t - 10 * len := by ring
    rw [h7, hlen]
  refine ⟨hform, ?_, ?_, fun cfg s now => new_timer_fireAt cfg s now⟩
  · intro t l1 l2 h
    rw [hform, hform]
    have hcast : ((l1 : ℚ)) ≤ (l2 : ℚ) := by exact_mod_cast h
    have hsub : t - 10 * (l2 : ℚ) ≤ t - 10 * (l1 : ℚ) := by linarith
    exact max_le_max (max_le_max le_rfl hsub) le_rfl
  · intro t len
    rw [hform]
    exact max_le_max (le_max_left _ _) le_rfl

/-- Witness for C9: with a 2500 ms configured timeout, the armed
window at 100 accumulated characters is no longer than at 0. -/
theorem debounce_policy_divergence_witness :
    (0 : Nat) ≤ 100 ∧ armedTimeout 2500 100 ≤ armedTimeout 2500 0 :=
  ⟨by decide, debounce_policy_divergence.2.1 2500 0 100 (by decide)⟩

/-! ## C10 -/

/-- States in which no voice-activity speech-start has been observed:
the captured flag is down and no debounce timer was ever armed. -/
def NoCapture (s : EState) : Prop :=
  s.hasCapturedSpeech = false ∧ s.liveTimers = [] ∧ s.speechEndTimer = none

lemma nocapture_init : NoCapture initState := ⟨rfl, rfl, rfl⟩

lemma tcCount_append (a b : List Out) :
    tcCount (a ++ b) = tcCount a + tcCount b := by
  simp [tcCount, List.filter_append]

lemma nocapture_step (cfg : Settings) (s : EState) (e : Ev)
    (h : NoCapture s) (he : ∀ now, e ≠ Ev.vadStart now) :
    NoCapture (step cfg s e).1 ∧ tcCount (step cfg s e).2 = 0 := by
  obtain ⟨hc, hl, hr⟩ := h
  cases e with
  | vadStart now => exact absurd rfl (he now)
  | vadEnd now =>
    by_cases hv : s.vadActive
    · have hno : handleVADSpeechEnd cfg s now = s := by
        unfold handleVADSpeechEnd
        rw [if_neg]
        intro hcond
        rw [hc] at hcond
        exact absurd hcond.2.2 (by simp)
      refine ⟨?_, by simp [step, hv, tcCount]⟩
      simp only [step, hv, if_true, hno]
      exact ⟨hc, hl, hr⟩
    · refine ⟨?_, by simp [step, hv, tcCount]⟩
      simp only [step, hv, Bool.false_eq_true, if_false]
      exact ⟨hc, hl, hr⟩
  | vadFrame now p =>
    by_cases hv : s.vadActive
    · refine ⟨?_, by simp [step, hv, tcCount]⟩
      simp only [step, hv, if_true]
      unfold handleVADSpeaking
      split_ifs with hcond
      · exact ⟨hc, by simp [clearEndTimer, hr, hl], rfl⟩
      · exact ⟨hc, hl, hr⟩
    · refine ⟨?_, by simp [step, hv, tcCount]⟩
      simp only [step, hv, Bool.false_eq_true, if_false]
      exact ⟨hc, hl, hr⟩
  | result now finals interim =>
    by_cases hv : s.isListening
    · refine ⟨?_, by simp [step, hv, tcCount]⟩
      simp only [step, hv, if_true, handleResult]
      exact ⟨hc, hl, hr⟩
    · refine ⟨?_, by simp [step, hv, tcCount]⟩
      simp only [step, hv, Bool.false_eq_true, if_false]
      exact ⟨hc, hl, hr⟩
  | recError now kind =>
    by_cases hv : s.isListening
    · refine ⟨?_, by simp [step, hv, tcCount]⟩
      simp only [step, hv, if_true]
      unfold handleError
      split_ifs <;> exact ⟨hc, hl, hr⟩
    · refine ⟨?_, by simp [step, hv, tcCount]⟩
      simp only [step, hv, Bool.false_eq_true, if_false]
      exact ⟨hc, hl, hr⟩
  | recEnded now =>
    refine ⟨?_, by simp [step, tcCount]⟩
    simp only [step]
    exact ⟨hc, hl, hr⟩
  | endTimerFire now i =>
    have hfind : s.liveTimers.find? (fun t => t.id == i) = none := by
      rw [hl]
      rfl
    refine ⟨?_, ?_⟩ <;> simp only [step, fireEndTimer, hfind]
    · exact ⟨hc, hl, hr⟩
    · simp [tcCount]
  | restartFire now =>
    refine ⟨?_, ?_⟩ <;> simp only [step, fireRestart]
    · split_ifs <;> exact ⟨hc, hl, hr⟩
    · split_ifs <;> simp [tcCount]
  | stopCall now =>
    refine ⟨?_, by simp [step, tcCount]⟩
    simp only [step, stopListening]
    exact ⟨hc, by simp [clearEndTimer, hr, hl], rfl⟩
  | resetCall now =>
    refine ⟨?_, by simp [step, tcCount]⟩
    simp only [step, resetTranscript]
    exact ⟨rfl, hl, hr⟩

lemma nocapture_run (cfg : Settings) :
    ∀ (tr : List Ev) (s : EState), NoCapture s → hasVadStart tr = false →
      NoCapture (run cfg s tr).1 ∧ tcCount (run cfg s tr).2 = 0 := by
  intro tr
  induction tr with
  | nil =>
    intro s h _
    exact ⟨h, rfl⟩
  | cons e es ih =>
    intro s h hs
    have hsplit : (∀ now, e ≠ Ev.vadStart now) ∧ hasVadStart es = false := by
      cases e <;> simp [hasVadStart] at hs ⊢ <;> exact hs
    obtain ⟨hstep, hout⟩ := nocapture_step cfg s e h hsplit.1
    obtain ⟨hrun, hrout⟩ := ih (step cfg s e).1 hstep hsplit.2
    refine ⟨hrun, ?_⟩
    show tcCount ((step cfg s e).2 ++ (run cfg (step cfg s e).1 es).2) = 0
    rw [tcCount_append, hout, hrout]

/-- C10: in a session that has seen no voice-activity speech-start, a
speech-end never arms a debounce timer and no turn-complete is ever
emitted — no matter how much final transcript has accumulated or how
much time has passed: transcript content alone never completes a
turn. -/
theorem no_speech_start_no_turn_complete (cfg : Settings) (tr : List Ev)
    (h : hasVadStart tr = false) :
    tcCount (run cfg initState tr).2 = 0 ∧
      (run cfg initState tr).1.liveTimers = [] := by
  obtain ⟨hnc, hout⟩ := nocapture_run cfg tr initState nocapture_init h
  exact ⟨hout, hnc.2.1⟩

/-- Witness for C10: a trace with accumulated text "hello world", a
late speech-end and a timer-expiration probe, but no speech-start,
arms nothing and emits nothing. -/
theorem no_speech_start_no_turn_complete_witness :
    hasVadStart traceNoStart = false ∧
      tcCount (run cfgA initState traceNoStart).2 = 0 ∧
      (run cfgA initState traceNoStart).1.liveTimers = [] :=
  ⟨by decide, no_speech_start_no_turn_complete cfgA traceNoStart (by decide)⟩

end AIInterview

namespace AIInterview

/-! ## Invariant machinery for C4 and C5

Under the voice-activity collaborator contract (start/end alternation)
the live debounce timers are always exactly the one held in
`speechEndTimerRef` (or none). -/

/-- The live timers are either empty or exactly the ref-held timer. -/
def LiveShape (s : EState) : Prop :=
  s.liveTimers = [] ∨
    ∃ i f, s.speechEndTimer = some i ∧ s.liveTimers = [⟨i, f⟩]

/-- Timer invariant plus: no timer survives VAD teardown. -/
def Shape (s : EState) : Prop :=
  LiveShape s ∧ (s.vadActive = false → s.liveTimers = [])

/-- While the contract says speech is in progress, no debounce timer is
pending (speech-start cleared it). -/
def InOk (inS : Bool) (s : EState) : Prop :=
  inS = true → s.vadActive = true → s.liveTimers = []

/-- A torn-down session: VAD destroyed and no timer live. -/
def Dead (s : EState) : Prop := s.vadActive = false ∧ s.liveTimers = []

lemma clearEndTimer_live (s : EState) (h : LiveShape s) :
    (clearEndTimer s).liveTimers = [] := by
  unfold clearEndTimer
  rcases h with h | ⟨i, f, hi, hl⟩
  · cases hs : s.speechEndTimer <;> simp [hs, h]
  · simp [hi, hl]

lemma shape_of_dead (s : EState) (h : Dead s) : Shape s :=
  ⟨Or.inl h.2, fun _ => h.2⟩

lemma shape_init : Shape initState := ⟨Or.inl rfl, fun _ => rfl⟩

lemma inok_init : InOk false initState := by
  intro h
  exact absurd h (by simp)

lemma dead_step (cfg : Settings) (s : EState) (e : Ev) (h : Dead s) :
    Dead (step cfg s e).1 ∧ tcCount (step cfg s e).2 = 0 := by
  obtain ⟨hv, hl⟩ := h
  cases e with
  | vadStart now =>
    refine ⟨?_, by simp [step, hv, tcCount]⟩
    simp only [step, hv, Bool.false_eq_true, if_false]
    exact ⟨hv, hl⟩
  | vadEnd now =>
    refine ⟨?_, by simp [step, hv, tcCount]⟩
    simp only [step, hv, Bool.false_eq_true, if_false]
    exact ⟨hv, hl⟩
  | vadFrame now p =>
    refine ⟨?_, by simp [step, hv, tcCount]⟩
    simp only [step, hv, Bool.false_eq_true, if_false]
    exact ⟨hv, hl⟩
  | result now finals interim =>
    by_cases hi : s.isListening
    · refine ⟨?_, by simp [step, hi, tcCount]⟩
      simp only [step, hi, if_true]
      exact ⟨hv, hl⟩
    · refine ⟨?_, by simp [step, hi, tcCount]⟩
      simp only [step, hi, Bool.false_eq_true, if_false]
      exact ⟨hv, hl⟩
  | recError now kind =>
    by_cases hi : s.isListening
    · refine ⟨?_, by simp [step, hi, tcCount]⟩
      simp only [step, hi, if_true]
      unfold handleError
      split_ifs <;> exact ⟨hv, hl⟩
    · refine ⟨?_, by simp [step, hi, tcCount]⟩
      simp only [step, hi, Bool.false_eq_true, if_false]
      exact ⟨hv, hl⟩
  | recEnded now =>
    refine ⟨?_, by simp [step, tcCount]⟩
    simp only [step]
    exact ⟨hv, hl⟩
  | endTimerFire now i =>
    have hfind : s.liveTimers.find? (fun t => t.id == i) = none := by
      rw [hl]
      rfl
    refine ⟨?_, ?_⟩ <;> simp only [step, fireEndTimer, hfind]
    · exact ⟨hv, hl⟩
    · simp [tcCount]
  | restartFire now =>
    refine ⟨?_, ?_⟩ <;> simp only [step, fireRestart]
    · split_ifs <;> exact ⟨hv, hl⟩
    · split_ifs <;> simp [tcCount]
  | stopCall now =>
    refine ⟨?_, by simp [step, tcCount]⟩
    simp only [step, stopListening]
    exact ⟨rfl, clearEndTimer_live s (Or.inl hl)⟩
  | resetCall now =>
    refine ⟨?_, by simp [step, tcCount]⟩
    simp only [step, resetTranscript]
    exact ⟨hv, hl⟩

lemma dead_run (cfg : Settings) :
    ∀ (tr : List Ev) (s : EState), Dead s →
      Dead (run cfg s tr).1 ∧ tcCount (run cfg s tr).2 = 0 := by
  intro tr
  induction tr with
  | nil =>
    intro s h
    exact ⟨h, rfl⟩
  | cons e es ih =>
    intro s h
    obtain ⟨hstep, hout⟩ := dead_step cfg s e h
    obtain ⟨hrun, hrout⟩ := ih (step cfg s e).1 hstep
    refine ⟨hrun, ?_⟩
    show tcCount ((step cfg s e).2 ++ (run cfg (step cfg s e).1 es).2) = 0
    rw [tcCount_append, hout, hrout]

lemma vadAlternates_cons (inS : Bool) (e : Ev) (es : List Ev)
    (h : vadAlternates inS (e :: es) = true) :
    (∀ now, e = Ev.vadEnd now → inS = true) ∧
      vadAlternates (inSpeechAfter inS e) es = true := by
  cases e with
  | vadEnd now =>
    simp only [vadAlternates, Bool.and_eq_true] at h
    exact ⟨fun _ _ => h.1, h.2⟩
  | vadStart now => exact ⟨(fun _ he => by cases he), h⟩
  | vadFrame now p => exact ⟨(fun _ he => by cases he), h⟩
  | result now finals interim => exact ⟨(fun _ he => by cases he), h⟩
  | recError now kind => exact ⟨(fun _ he => by cases he), h⟩
  | recEnded now => exact ⟨(fun _ he => by cases he), h⟩
  | endTimerFire now i => exact ⟨(fun _ he => by cases he), h⟩
  | restartFire now => exact ⟨(fun _ he => by cases he), h⟩
  | stopCall now => exact ⟨(fun _ he => by cases he), h⟩
  | resetCall now => exact ⟨(fun _ he => by cases he), h⟩

end AIInterview

namespace AIInterview

/-- One contract-respecting step preserves the timer invariants, and any
step that emits a turn-complete leaves the session dead. -/
lemma step_inv (cfg : Settings) (s : EState) (e : Ev) (inS : Bool)
    (hS : Shape s) (hI : InOk inS s)
    (hE : ∀ now, e = Ev.vadEnd now → inS = true) :
    Shape (step cfg s e).1 ∧ InOk (inSpeechAfter inS e) (step cfg s e).1 ∧
      (tcCount (step cfg s e).2 = 0 ∨
        (tcCount (step cfg s e).2 = 1 ∧ Dead (step cfg s e).1)) := by
  obtain ⟨hLS, hVA⟩ := hS
  cases e with
  | vadStart now =>
    by_cases hv : s.vadActive
    · have hstep : step cfg s (Ev.vadStart now) = (handleVADSpeechStart s now, []) := by
        simp [step, hv]
      have hcl : (handleVADSpeechStart s now).liveTimers = [] := by
        unfold handleVADSpeechStart
        apply clearEndTimer_live
        rcases hLS with h | ⟨i, f, hi, hl⟩
        · exact Or.inl h
        · exact Or.inr ⟨i, f, hi, hl⟩
      rw [hstep]
      exact ⟨⟨Or.inl hcl, fun _ => hcl⟩, fun _ _ => hcl, Or.inl rfl⟩
    · have hstep : step cfg s (Ev.vadStart now) = (s, []) := by
        simp [step, hv]
      rw [hstep]
      refine ⟨⟨hLS, hVA⟩, ?_, Or.inl rfl⟩
      intro _ hva
      exact absurd hva hv
  | vadEnd now =>
    have hIn : inS = true := hE now rfl
    by_cases hv : s.vadActive
    · have hstep : step cfg s (Ev.vadEnd now) = (handleVADSpeechEnd cfg s now, []) := by
        simp [step, hv]
      have hlive0 : s.liveTimers = [] := hI hIn hv
      rw [hstep]
      by_cases hc : cfg.minSpeechDuration ≤ speechDurationAt s now ∧
          0 < (jsTrim s.finalTranscript).length ∧ s.hasCapturedSpeech = true
      · have he2 : handleVADSpeechEnd cfg s now =
            { s with
              speechEndTimer := some s.nextTimerId
              liveTimers :=
                s.liveTimers ++ [⟨s.nextTimerId, now + cfg.silenceAfterSpeechTimeout⟩]
              nextTimerId := s.nextTimerId + 1 } := by
          unfold handleVADSpeechEnd
          rw [if_pos hc]
        rw [he2]
        have hsingle :
            s.liveTimers ++ [(⟨s.nextTimerId, now + cfg.silenceAfterSpeechTimeout⟩ : TimerInfo)] =
              [⟨s.nextTimerId, now + cfg.silenceAfterSpeechTimeout⟩] := by
          rw [hlive0]
          rfl
        refine ⟨⟨Or.inr ⟨s.nextTimerId, now + cfg.silenceAfterSpeechTimeout, rfl, hsingle⟩, ?_⟩,
          ?_, Or.inl rfl⟩
        · intro hva
          exact absurd hva (by simp [hv])
        · intro h1
          exact absurd h1 (by simp [inSpeechAfter])
      · have he2 : handleVADSpeechEnd cfg s now = s := by
          unfold handleVADSpeechEnd
          rw [if_neg hc]
        rw [he2]
        refine ⟨⟨hLS, hVA⟩, ?_, Or.inl rfl⟩
        intro h1
        exact absurd h1 (by simp [inSpeechAfter])
    · have hstep : step cfg s (Ev.vadEnd now) = (s, []) := by
        simp [step, hv]
      rw [hstep]
      refine ⟨⟨hLS, hVA⟩, ?_, Or.inl rfl⟩
      intro h1
      exact absurd h1 (by simp [inSpeechAfter])
  | vadFrame now p =>
    by_cases hv : s.vadActive
    · have hstep : step cfg s (Ev.vadFrame now p) = (handleVADSpeaking cfg s p, []) := by
        simp [step, hv]
      rw [hstep]
      unfold handleVADSpeaking
      split_ifs with hcond
      · have hcl : (clearEndTimer s).liveTimers = [] := clearEndTimer_live s hLS
        exact ⟨⟨Or.inl hcl, fun _ => hcl⟩, fun _ _ => hcl, Or.inl rfl⟩
      · exact ⟨⟨hLS, hVA⟩, hI, Or.inl rfl⟩
    · have hstep : step cfg s (Ev.vadFrame now p) = (s, []) := by
        simp [step, hv]
      rw [hstep]
      exact ⟨⟨hLS, hVA⟩, hI, Or.inl rfl⟩
  | result now finals interim =>
    by_cases hi : s.isListening
    · have hstep : step cfg s (Ev.result now finals interim) =
          (handleResult s finals interim, []) := by
        simp [step, hi]
      rw [hstep]
      exact ⟨⟨hLS, hVA⟩, hI, Or.inl rfl⟩
    · have hstep : step cfg s (Ev.result now finals interim) = (s, []) := by
        simp [step, hi]
      rw [hstep]
      exact ⟨⟨hLS, hVA⟩, hI, Or.inl rfl⟩
  | recError now kind =>
    by_cases hi : s.isListening
    · have hstep : step cfg s (Ev.recError now kind) = (handleError s now kind, []) := by
        simp [step, hi]
      rw [hstep]
      unfold handleError
      split_ifs <;> exact ⟨⟨hLS, hVA⟩, hI, Or.inl rfl⟩
    · have hstep : step cfg s (Ev.recError now kind) = (s, []) := by
        simp [step, hi]
      rw [hstep]
      exact ⟨⟨hLS, hVA⟩, hI, Or.inl rfl⟩
  | recEnded now =>
    have hstep : step cfg s (Ev.recEnded now) = ({ s with isListening := false }, []) := rfl
    rw [hstep]
    exact ⟨⟨hLS, hVA⟩, hI, Or.inl rfl⟩
  | endTimerFire now i =>
    cases hfind : s.liveTimers.find? (fun t => t.id == i) with
    | none =>
      have hstep : step cfg s (Ev.endTimerFire now i) = (s, []) := by
        simp [step, fireEndTimer, hfind]
      rw [hstep]
      exact ⟨⟨hLS, hVA⟩, hI, Or.inl rfl⟩
    | some t =>
      have htmem : t ∈ s.liveTimers := List.mem_of_find?_eq_some hfind
      rcases hLS with h0 | ⟨j, f, hj, hl⟩
      · rw [h0] at htmem
        cases htmem
      · have htid : t.id = i := by
          have := List.find?_some hfind
          simpa using this
        have hteq : t = ⟨j, f⟩ := by
          rw [hl] at htmem
          simpa using htmem
        have hfilter : s.liveTimers.filter (fun u => u.id != i) = [] := by
          rw [hl]
          have : j = i := by
            rw [hteq] at htid
            exact htid
          simp [this]
        by_cases hdue : t.fireAt ≤ now
        · by_cases htext : jsTrim s.finalTranscript = ""
          · have hstep : step cfg s (Ev.endTimerFire now i) =
                ({ s with liveTimers := s.liveTimers.filter (fun u => u.id != i) }, []) := by
              simp [step, fireEndTimer, hfind, hdue, htext]
            rw [hstep]
            refine ⟨⟨Or.inl hfilter, fun _ => hfilter⟩, fun _ _ => hfilter, Or.inl rfl⟩
          · have hstep : step cfg s (Ev.endTimerFire now i) =
                (stopListening
                    { s with liveTimers := s.liveTimers.filter (fun u => u.id != i) },
                  [Out.turnComplete (jsTrim s.finalTranscript)]) := by
              simp [step, fireEndTimer, hfind, hdue, htext]
            rw [hstep]
            have hlive : (stopListening
                { s with liveTimers := s.liveTimers.filter (fun u => u.id != i) }).liveTimers
                  = [] := by
              unfold stopListening
              exact clearEndTimer_live _ (Or.inl hfilter)
            refine ⟨⟨Or.inl hlive, fun _ => hlive⟩, fun _ _ => hlive,
              Or.inr ⟨rfl, rfl, hlive⟩⟩
        · have hstep : step cfg s (Ev.endTimerFire now i) = (s, []) := by
            simp [step, fireEndTimer, hfind, hdue]
          rw [hstep]
          exact ⟨⟨Or.inr ⟨j, f, hj, hl⟩, hVA⟩, hI, Or.inl rfl⟩
  | restartFire now =>
    have h1 : (step cfg s (Ev.restartFire now)).1.liveTimers = s.liveTimers ∧
        (step cfg s (Ev.restartFire now)).1.speechEndTimer = s.speechEndTimer ∧
        (step cfg s (Ev.restartFire now)).1.vadActive = s.vadActive ∧
        tcCount (step cfg s (Ev.restartFire now)).2 = 0 := by
      simp only [step, fireRestart]
      split_ifs <;> exact ⟨rfl, rfl, rfl, by simp [tcCount]⟩
    obtain ⟨ha, hb, hc, hd⟩ := h1
    refine ⟨⟨?_, ?_⟩, ?_, Or.inl hd⟩
    · rcases hLS with h | ⟨j, f, hj, hl⟩
      · exact Or.inl (ha.trans h)
      · exact Or.inr ⟨j, f, hb.trans hj, ha.trans hl⟩
    · intro hva
      rw [ha]
      exact hVA (hc ▸ hva)
    · intro h1 h2
      rw [ha]
      exact hI h1 (hc ▸ h2)
  | stopCall now =>
    have hstep : step cfg s (Ev.stopCall now) = (stopListening s, []) := rfl
    have hlive : (stopListening s).liveTimers = [] := by
      unfold stopListening
      exact clearEndTimer_live _ hLS
    rw [hstep]
    exact ⟨⟨Or.inl hlive, fun _ => hlive⟩, fun _ _ => hlive, Or.inl rfl⟩
  | resetCall now =>
    have hstep : step cfg s (Ev.resetCall now) = (resetTranscript s, []) := rfl
    rw [hstep]
    exact ⟨⟨hLS, hVA⟩, hI, Or.inl rfl⟩

end AIInterview

namespace AIInterview

/-- Along any event trace respecting the voice-activity alternation
contract, the timer invariant is maintained and at most one
turn-complete is emitted. -/
lemma run_inv (cfg : Settings) :
    ∀ (tr : List Ev) (inS : Bool) (s : EState),
      Shape s → InOk inS s → vadAlternates inS tr = true →
      Shape (run cfg s tr).1 ∧ tcCount (run cfg s tr).2 ≤ 1 := by
  intro tr
  induction tr with
  | nil =>
    intro inS s hS _ _
    exact ⟨hS, by simp [run, tcCount]⟩
  | cons e es ih =>
    intro inS s hS hI hA
    obtain ⟨hE, hA'⟩ := vadAlternates_cons inS e es hA
    obtain ⟨hS', hI', hTc⟩ := step_inv cfg s e inS hS hI hE
    have hrun1 : (run cfg s (e :: es)).1 = (run cfg (step cfg s e).1 es).1 := rfl
    have hrun2 : (run cfg s (e :: es)).2 =
        (step cfg s e).2 ++ (run cfg (step cfg s e).1 es).2 := rfl
    rw [hrun1, hrun2, tcCount_append]
    rcases hTc with h0 | ⟨h1, hDead⟩
    · obtain ⟨hs2, hc2⟩ := ih (inSpeechAfter inS e) (step cfg s e).1 hS' hI' hA'
      refine ⟨hs2, ?_⟩
      rw [h0]
      simpa using hc2
    · obtain ⟨hd2, hc2⟩ := dead_run cfg es (step cfg s e).1 hDead
      refine ⟨shape_of_dead _ hd2, ?_⟩
      rw [h1, hc2]

/-! ## C4 -/

/-- C4 counterexample: with three consecutive speech-end events (each
arming overwrites the timer ref without clearing the previous timeout),
two of the leaked timers fire in turn and the turn-completion callback
is invoked twice in one session — the second time after the first
completion already tore the session down.  This refutes "at most one
terminal event under any subsequent event sequence". -/
theorem double_fire_counterexample :
    (run cfgA initState traceTripleEnd).2 =
      [Out.turnComplete "hello world", Out.turnComplete "hello world"] := by
  decide

/-- C4 amended: under the voice-activity collaborator contract (every
speech-end preceded by a speech-start, alternating), at most one
turn-complete is emitted per session; the hook itself has no
session-error emission channel (errors only set an error state), so no
session emits both a turn-complete and an error event. -/
theorem at_most_one_turn_complete_alternating (cfg : Settings) (tr : List Ev)
    (h : vadAlternates false tr = true) :
    tcCount (run cfg initState tr).2 ≤ 1 :=
  (run_inv cfg tr false initState shape_init inok_init h).2

/-- Witness for the amended C4: scenario A respects the contract and
emits exactly one (hence at most one) turn-complete. -/
theorem at_most_one_turn_complete_alternating_witness :
    vadAlternates false traceA = true ∧ tcCount (run cfgA initState traceA).2 ≤ 1 :=
  ⟨by decide, at_most_one_turn_complete_alternating cfgA traceA (by decide)⟩

/-! ## C5 -/

/-- C5 counterexample: after two consecutive speech-end events the
session holds two live debounce timers at once, and the older timer —
the one the new arming supposedly cancelled — still fires and invokes
the turn-completion callback.  This refutes "starting a new timer
cancels the previous so that its callback can never fire". -/
theorem leaked_timer_counterexample :
    (run cfgA initState traceDoubleEnd).1.liveTimers.length = 2 ∧
    (step cfgA (run cfgA initState traceDoubleEnd).1 (Ev.endTimerFire 2700 0)).2 =
      [Out.turnComplete "hello world"] := by
  refine ⟨by decide, by decide⟩

/-- C5 amended: under the voice-activity alternation contract at most
one debounce timer is live at any point of the session — the
speech-start preceding each speech-end clears the pending timer, so a
timer is only ever armed when none is live.  (Arming itself cancels
nothing.) -/
theorem single_live_timer_alternating (cfg : Settings) (tr : List Ev)
    (h : vadAlternates false tr = true) :
    (run cfg initState tr).1.liveTimers.length ≤ 1 := by
  obtain ⟨⟨hLS, _⟩, _⟩ := run_inv cfg tr false initState shape_init inok_init h
  rcases hLS with h1 | ⟨i, f, _, h1⟩ <;> simp [h1]

/-- A contract-respecting trace with a probability spike during the
debounce (scenario B): the timer is cancelled, none is live at the end. -/
def traceB : List Ev :=
  [Ev.vadStart 0, Ev.result 600 [("hello world", 90)] "", Ev.vadEnd 1200,
   Ev.vadFrame 1800 85, Ev.endTimerFire 2700 0]

/-- Witness for the amended C5. -/
theorem single_live_timer_alternating_witness :
    vadAlternates false traceB = true ∧
      (run cfgA initState traceB).1.liveTimers.length ≤ 1 :=
  ⟨by decide, single_live_timer_alternating cfgA traceB (by decide)⟩

end AIInterview
